import Mathlib

/-
  Verification development for the session-storage library:
  a gin middleware Session wrapper, a redis-backed store (RediStore)
  and a MongoDB-backed store (MongoStore), all implementing the
  gorilla sessions Store interface.

  The definitions below are a shallow embedding of the Go source:
  src/redis/redistore.go, src/unnamed/part_000 (the Session wrapper and
  middleware) and src/unnamed/part_001 (the MongoStore).  External
  collaborators (the securecookie codec, the go-redis client, the mgo
  driver) are modelled as explicit function parameters or as small
  state machines mirroring their documented behaviour.
-/

set_option autoImplicit false

namespace SessionLib

/-- Session payload values.  The Go source stores
`map[interface]interface` values; the claims only need a timestamp
variant (for the reserved "modified" field of the Mongo backend) and a
few opaque alternatives, so the payload is a tagged variant type. -/
inductive MValue where
  | time (t : Nat)
  | str (s : String)
  | int (n : Int)
  | boolean (b : Bool)
  deriving DecidableEq, Repr

/-- The session values map, as an association list keyed by strings. -/
abbrev Values := List (String × MValue)

/-- Lookup in the values map: the Go map access `session.Values[key]`. -/
def lookupValue (l : Values) (k : String) : Option MValue :=
  match l with
  | [] => none
  | (k', v) :: rest => if k' = k then some v else lookupValue rest k

/-- Cookie options, mirroring gorilla sessions.Options (the fields the
claims depend on; MaxAge is an int in Go). -/
structure SessionOptions where
  path : String
  domain : String
  maxAge : Int
  secure : Bool
  httpOnly : Bool
  deriving DecidableEq, Repr

/-- A gorilla sessions.Session: id, name, values, options, IsNew. -/
structure GSession where
  id : String
  name : String
  values : Values
  options : SessionOptions
  isNew : Bool
  deriving DecidableEq, Repr

/-- A cookie written to the response by http.SetCookie via
sessions.NewCookie(name, value, options). -/
structure CookieSet where
  name : String
  value : String
  options : SessionOptions
  deriving DecidableEq, Repr

/-- Errors the go-redis client can report from an operation: redis.Nil
for a missing key, or a connectivity error. -/
inductive RedisErr where
  | redisNil
  | connError
  deriving DecidableEq, Repr

/-- Errors the mgo driver can report: ErrNotFound, or a connectivity
error. -/
inductive MongoErr where
  | notFound
  | connError
  deriving DecidableEq, Repr

/-- The error values that escape the store operations: securecookie
codec errors (carried as a message), redis client errors, the
"value to store is too big" error of RediStore.save, the ErrInvalidId
and "invalid modified value" errors of MongoStore, and mgo errors. -/
inductive SErr where
  | codec (e : String)
  | redis (e : RedisErr)
  | tooBig
  | invalidId
  | invalidModified
  | mongo (e : MongoErr)
  deriving DecidableEq, Repr

/- ----------------------------------------------------------------
   Model of the go-redis client: a key/value store (each key holding a
   value and the TTL it was written with) behind a connection that is
   either reachable or not.  When the connection is down every
   operation returns a connectivity error together with the zero value
   of its result type (the empty string for GET).  GET of a missing
   key returns the redis.Nil error and an empty string, as documented
   by go-redis.
   ---------------------------------------------------------------- -/

/-- State of the redis backend as seen through one client. -/
structure RedisConn where
  ok : Bool
  store : List (String × String × Int)
  deriving DecidableEq, Repr

/-- First value stored under a key, if any. -/
def redisLookup (st : List (String × String × Int)) (k : String) :
    Option (String × Int) :=
  match st with
  | [] => none
  | (k', v) :: rest => if k' = k then some v else redisLookup rest k

/-- Client.Get(key).Result(): the string result and the error. -/
def redisGet (c : RedisConn) (k : String) : String × Option RedisErr :=
  if c.ok then
    match redisLookup c.store k with
    | some (v, _) => (v, none)
    | none => ("", some RedisErr.redisNil)
  else ("", some RedisErr.connError)

/-- Client.Set(key, value, ttl).Result(): new state and the error. -/
def redisSet (c : RedisConn) (k : String) (v : String) (ttl : Int) :
    RedisConn × Option RedisErr :=
  if c.ok then
    ({ c with store := (k, v, ttl) :: c.store.filter (fun e => e.1 ≠ k) }, none)
  else (c, some RedisErr.connError)

/-- Client.Del(key).Result(): new state and the error. -/
def redisDel (c : RedisConn) (k : String) : RedisConn × Option RedisErr :=
  if c.ok then
    ({ c with store := c.store.filter (fun e => e.1 ≠ k) }, none)
  else (c, some RedisErr.connError)

/- ----------------------------------------------------------------
   RediStore (src/redis/redistore.go)
   ---------------------------------------------------------------- -/

/-- Handle to a single-node redis client, holding the options it was
constructed from (redis.NewClient in NewRediStore). -/
structure RedisClientRef where
  addr : String
  poolSize : Nat
  dialTimeoutSeconds : Nat
  password : String
  deriving DecidableEq, Repr

/-- Handle to a cluster redis client (redis.NewClusterClient). -/
structure RedisClusterClientRef where
  addrs : List String
  poolSize : Nat
  dialTimeoutSeconds : Nat
  password : String
  deriving DecidableEq, Repr

/-- The RediStore struct.  The Client and ClusterClient pointer fields
are Options: none models a nil pointer.  The securecookie Codecs are
not stored; codec behaviour enters each operation as an explicit
encode/decode function parameter. -/
structure RediStore where
  client : Option RedisClientRef
  clusterClient : Option RedisClusterClientRef
  options : SessionOptions
  defaultMaxAge : Int
  maxLength : Nat
  keyPre : String
  isCluster : Bool
  deriving DecidableEq, Repr

/-- RediStore.load: GET keyPre ++ session.ID, then, if the returned
data is nonempty, decode it into session.Values.  Mirrors the source
exactly: the emptiness of the data is tested before the GET error is
inspected, and the GET error variable is afterwards overwritten by the
decode result, so a GET error never leaves this function.  Returns the
error and the (possibly updated) session. -/
def RediStore.load (s : RediStore)
    (decodeValues : String → Except String Values)
    (conn : RedisConn) (session : GSession) : Option SErr × GSession :=
  let res := redisGet conn (s.keyPre ++ session.id)
  if res.1 = "" then
    (none, session)
  else
    match decodeValues res.1 with
    | Except.error e => (some (SErr.codec e), session)
    | Except.ok v => (none, { session with values := v })

/-- RediStore.New: build a fresh session with a copy of the default
options and IsNew = true; if the request carries a cookie under the
name (modelled as `cookie : Option String`), decode the session id
from it and, on success, load the backend record; IsNew becomes the
negation of "load returned nil".  The error of the last step taken is
returned together with the session. -/
def RediStore.New (s : RediStore)
    (decodeId : String → Except String String)
    (decodeValues : String → Except String Values)
    (conn : RedisConn) (cookie : Option String) (name : String) :
    GSession × Option SErr :=
  let session : GSession :=
    { id := "", name := name, values := [], options := s.options, isNew := true }
  match cookie with
  | none => (session, none)
  | some cv =>
    match decodeId cv with
    | Except.error e => (session, some (SErr.codec e))
    | Except.ok sid =>
      let session := { session with id := sid }
      let r := s.load decodeValues conn session
      ({ r.2 with isNew := r.1.isSome }, r.1)

/-- RediStore.save (the lower-case helper): encode the values; reject
when maxLength is nonzero and the encoding is longer; otherwise SET
the record under keyPre ++ id with TTL = MaxAge, or DefaultMaxAge when
MaxAge is zero. -/
def RediStore.saveHelper (s : RediStore)
    (encodeValues : Values → Except String String)
    (conn : RedisConn) (session : GSession) : RedisConn × Option SErr :=
  match encodeValues session.values with
  | Except.error e => (conn, some (SErr.codec e))
  | Except.ok encoded =>
    if s.maxLength ≠ 0 ∧ encoded.length > s.maxLength then
      (conn, some SErr.tooBig)
    else
      let age := if session.options.maxAge = 0 then s.defaultMaxAge
                 else session.options.maxAge
      let r := redisSet conn (s.keyPre ++ session.id) encoded age
      (r.1, r.2.map SErr.redis)

/-- RediStore.Save: with negative MaxAge, delete the backend record
and, when the delete succeeded, set a cookie with empty value;
otherwise assign a fresh random id when the id is empty (the random
generator enters as the `freshId` parameter), run the save helper,
encode the id and set the cookie carrying it.  Returns the new backend
state, the cookie set on the response (if any) and the error. -/
def RediStore.Save (s : RediStore)
    (encodeValues : Values → Except String String)
    (encodeId : String → Except String String)
    (freshId : String)
    (conn : RedisConn) (session : GSession) :
    RedisConn × Option CookieSet × Option SErr :=
  if session.options.maxAge < 0 then
    let r := redisDel conn (s.keyPre ++ session.id)
    match r.2 with
    | some e => (r.1, none, some (SErr.redis e))
    | none =>
      (r.1, some { name := session.name, value := "", options := session.options },
       none)
  else
    let session := if session.id = "" then { session with id := freshId }
                   else session
    let r := s.saveHelper encodeValues conn session
    match r.2 with
    | some e => (r.1, none, some e)
    | none =>
      match encodeId session.id with
      | Except.error e => (r.1, none, some (SErr.codec e))
      | Except.ok encoded =>
        (r.1, some { name := session.name, value := encoded,
                     options := session.options }, none)

/-- RediStore.ping: Result() of PING through the chosen client, then
the source check: an error or an empty string yields (false, err),
otherwise (data == "PONG", nil).  The raw PING outcome enters as a
parameter. -/
def RediStore.ping (pingRes : String × Option RedisErr) :
    Bool × Option RedisErr :=
  if pingRes.2.isSome ∨ pingRes.1 = "" then (false, pingRes.2)
  else (pingRes.1 = "PONG", none)

/-- The possible outcomes of NewRediStore.  The two panic outcomes and
the out-of-range outcome abort construction before any client is built
and before ping runs, so they carry nothing; ok carries the store and
the error returned alongside it (the error of the ping network
call). -/
inductive ConstructResult where
  | panicClusterCount
  | panicSingleCount
  | indexOutOfRange
  | ok (rs : RediStore) (err : Option RedisErr)
  deriving DecidableEq, Repr

/-- NewRediStore: in cluster mode, panic when fewer than 6 addresses
are given, else build the cluster client and store; in single mode,
panic when more than 1 address is given, else index address[0] (out of
range on an empty list) and build the single client and store.  Both
successful branches then ping the backend and return the store with
the ping error.  The raw PING outcome enters as `pingRes`. -/
def NewRediStore (isCluster : Bool) (size : Nat) (address : List String)
    (password : String) (pingRes : String × Option RedisErr) :
    ConstructResult :=
  if isCluster then
    if address.length < 6 then ConstructResult.panicClusterCount
    else
      let rs : RediStore :=
        { client := none
          clusterClient := some
            { addrs := address, poolSize := size, dialTimeoutSeconds := 10,
              password := password }
          options := { path := "/", domain := "", maxAge := 86400 * 30,
                       secure := false, httpOnly := false }
          defaultMaxAge := 60 * 30
          maxLength := 4096
          keyPre := "session_"
          isCluster := true }
      ConstructResult.ok rs (RediStore.ping pingRes).2
  else
    if address.length > 1 then ConstructResult.panicSingleCount
    else
      match address with
      | [] => ConstructResult.indexOutOfRange
      | a :: _ =>
        let rs : RediStore :=
          { client := some
              { addr := a, poolSize := size, dialTimeoutSeconds := 10,
                password := password }
            clusterClient := none
            options := { path := "/", domain := "", maxAge := 86400 * 30,
                         secure := false, httpOnly := false }
            defaultMaxAge := 60 * 30
            maxLength := 4096
            keyPre := "session_"
            isCluster := false }
        ConstructResult.ok rs (RediStore.ping pingRes).2

/-- Outcome of RediStore.Close.  The source body is
`return s.Client.Close()`: when the Client field is a nil pointer the
call dereferences nil; otherwise the single-node client is closed. -/
inductive CloseResult where
  | nilDeref
  | closedClient (c : RedisClientRef)
  deriving DecidableEq, Repr

/-- RediStore.Close: closes s.Client, never s.ClusterClient. -/
def RediStore.Close (s : RediStore) : CloseResult :=
  match s.client with
  | none => CloseResult.nilDeref
  | some c => CloseResult.closedClient c

/- ----------------------------------------------------------------
   The Session wrapper (src/unnamed/part_000): a per-request handle
   around a gorilla session, with the valueChanged flag gating Save.
   The underlying store persist call is modelled by its outcome
   (`storeSave : Option SErr`), and each wrapper operation additionally
   reports how many store persist calls it performed, so that the
   dirty-gating property can speak about backend I/O.
   ---------------------------------------------------------------- -/

/-- The wrapper Session struct: the resolved gorilla session values
and the valueChanged flag (name, request, store and writer are carried
implicitly by the operation parameters). -/
structure WSession where
  values : Values
  valueChanged : Bool
  deriving DecidableEq, Repr

/-- Session.Save: when valueChanged is set, delegate to the store
persist operation (outcome `storeSave`), clear the flag only when it
returned nil, and return its error; otherwise do nothing and return
nil.  The Nat counts store persist calls performed. -/
def WSession.Save (storeSave : Option SErr) (s : WSession) :
    Option SErr × WSession × Nat :=
  if s.valueChanged then
    match storeSave with
    | none => (none, { s with valueChanged := false }, 1)
    | some e => (some e, s, 1)
  else (none, s, 0)

/-- Session.Set: store the value, mark valueChanged, then auto-save,
discarding the save error. -/
def WSession.Set (storeSave : Option SErr) (k : String) (v : MValue)
    (s : WSession) : WSession × Nat :=
  let s := { s with values := (k, v) :: s.values.filter (fun p => p.1 ≠ k),
                    valueChanged := true }
  let r := WSession.Save storeSave s
  (r.2.1, r.2.2)

/-- Session.Delete: remove the key and mark valueChanged; no
auto-save. -/
def WSession.Delete (k : String) (s : WSession) : WSession :=
  { s with values := s.values.filter (fun p => p.1 ≠ k), valueChanged := true }

/- ----------------------------------------------------------------
   MongoStore (src/unnamed/part_001)
   ---------------------------------------------------------------- -/

/-- bson.ObjectId hex validity: exactly 24 hexadecimal characters. -/
def isHexChar (c : Char) : Bool :=
  c.isDigit || (('a' ≤ c) && (c ≤ 'f')) || (('A' ≤ c) && (c ≤ 'F'))

/-- bson.IsObjectIdHex. -/
def isObjectIdHex (s : String) : Bool :=
  s.length == 24 && s.toList.all isHexChar

/-- The SessionItem document stored in MongoDB: _id, data (the encoded
values) and the modified timestamp. -/
structure SessionItem where
  id : String
  data : String
  modified : Nat
  deriving DecidableEq, Repr

/-- State of the Mongo collection behind a connection that is either
reachable or not. -/
structure MongoConn where
  ok : Bool
  docs : List SessionItem
  deriving DecidableEq, Repr

/-- Collection.FindId(id).One: the first document with the id, or
ErrNotFound; a connectivity error when the connection is down. -/
def mongoFindId (c : MongoConn) (id : String) : Except MongoErr SessionItem :=
  if c.ok then
    match c.docs.find? (fun d => d.id == id) with
    | some d => Except.ok d
    | none => Except.error MongoErr.notFound
  else Except.error MongoErr.connError

/-- Collection.UpsertId(id, item): insert-or-replace the document. -/
def mongoUpsertId (c : MongoConn) (item : SessionItem) :
    MongoConn × Option MongoErr :=
  if c.ok then
    ({ c with docs := item :: c.docs.filter (fun d => d.id ≠ item.id) }, none)
  else (c, some MongoErr.connError)

/-- Collection.RemoveId(id): remove the document, ErrNotFound when no
document has the id. -/
def mongoRemoveId (c : MongoConn) (id : String) : MongoConn × Option MongoErr :=
  if c.ok then
    if c.docs.any (fun d => d.id == id) then
      ({ c with docs := c.docs.filter (fun d => d.id ≠ id) }, none)
    else (c, some MongoErr.notFound)
  else (c, some MongoErr.connError)

/-- MongoStore.delete: reject an id that is not a valid ObjectId hex
with ErrInvalidId, else RemoveId on the collection. -/
def MongoStore.delete (c : MongoConn) (session : GSession) :
    MongoConn × Option SErr :=
  if isObjectIdHex session.id then
    let r := mongoRemoveId c session.id
    (r.1, r.2.map SErr.mongo)
  else (c, some SErr.invalidId)

/-- MongoStore.upsert: reject an invalid id; take `modified` from
values when the "modified" entry is present (failing with the invalid
modified value error when it is not a timestamp), else use the current
time (`now`); encode the values and UpsertId the document
(id, encoded, modified). -/
def MongoStore.upsert (encodeValues : Values → Except String String)
    (now : Nat) (c : MongoConn) (session : GSession) :
    MongoConn × Option SErr :=
  if isObjectIdHex session.id then
    match lookupValue session.values "modified" with
    | some (MValue.time t) =>
      match encodeValues session.values with
      | Except.error e => (c, some (SErr.codec e))
      | Except.ok encoded =>
        let r := mongoUpsertId c
          { id := session.id, data := encoded, modified := t }
        (r.1, r.2.map SErr.mongo)
    | some _ => (c, some SErr.invalidModified)
    | none =>
      match encodeValues session.values with
      | Except.error e => (c, some (SErr.codec e))
      | Except.ok encoded =>
        let r := mongoUpsertId c
          { id := session.id, data := encoded, modified := now }
        (r.1, r.2.map SErr.mongo)
  else (c, some SErr.invalidId)

/-- MongoStore.Save: with negative MaxAge, delete and, on success, set
a cookie with empty value; otherwise assign a fresh ObjectId hex when
the id is empty (the generator enters as `freshId`), upsert, encode
the id and set the cookie carrying it. -/
def MongoStore.Save (encodeValues : Values → Except String String)
    (encodeId : String → Except String String)
    (freshId : String) (now : Nat)
    (c : MongoConn) (session : GSession) :
    MongoConn × Option CookieSet × Option SErr :=
  if session.options.maxAge < 0 then
    let r := MongoStore.delete c session
    match r.2 with
    | some e => (r.1, none, some e)
    | none =>
      (r.1, some { name := session.name, value := "", options := session.options },
       none)
  else
    let session := if session.id = "" then { session with id := freshId }
                   else session
    let r := MongoStore.upsert encodeValues now c session
    match r.2 with
    | some e => (r.1, none, some e)
    | none =>
      match encodeId session.id with
      | Except.error e => (r.1, none, some (SErr.codec e))
      | Except.ok encoded =>
        (r.1, some { name := session.name, value := encoded,
                     options := session.options }, none)

/-- MongoStore.load: reject an id that is not a valid ObjectId hex
with ErrInvalidId; FindId the document; decode its data into
session.Values.  Returns the error and the (possibly updated)
session. -/
def MongoStore.load (decodeValues : String → Except String Values)
    (c : MongoConn) (session : GSession) : Option SErr × GSession :=
  if isObjectIdHex session.id then
    match mongoFindId c session.id with
    | Except.error e => (some (SErr.mongo e), session)
    | Except.ok item =>
      match decodeValues item.data with
      | Except.error e => (some (SErr.codec e), session)
      | Except.ok v => (none, { session with values := v })
  else (some SErr.invalidId, session)

/- ----------------------------------------------------------------
   Concrete fixtures used by counterexamples and witnesses.
   ---------------------------------------------------------------- -/

/-- The default options a new RediStore carries. -/
def opts0 : SessionOptions :=
  { path := "/", domain := "", maxAge := 86400 * 30, secure := false,
    httpOnly := false }

/-- A single-node RediStore with the default configuration. -/
def rs0 : RediStore :=
  { client := some { addr := "127.0.0.1:6379", poolSize := 10,
                     dialTimeoutSeconds := 10, password := "" }
    clusterClient := none
    options := opts0
    defaultMaxAge := 60 * 30
    maxLength := 4096
    keyPre := "session_"
    isCluster := false }

/-- A RediStore with a small max length, for the length guard. -/
def rs1 : RediStore := { rs0 with maxLength := 2 }

/-- A RediStore with maxLength 0, for the unlimited case. -/
def rs2 : RediStore := { rs0 with maxLength := 0 }

/-- A valid 24-character ObjectId hex string. -/
def hexId24 : String := "0123456789abcdef01234567"

/-- Six cluster seed addresses. -/
def addrs6 : List String := ["a", "b", "c", "d", "e", "f"]

/-- The RediStore that NewRediStore builds in cluster mode from
addrs6 with pool size 4 and empty password. -/
def rsCluster6 : RediStore :=
  { client := none
    clusterClient := some { addrs := addrs6, poolSize := 4,
                            dialTimeoutSeconds := 10, password := "" }
    options := opts0
    defaultMaxAge := 60 * 30
    maxLength := 4096
    keyPre := "session_"
    isCluster := true }

/-- Options marked for deletion. -/
def optsNeg : SessionOptions := { opts0 with maxAge := -1 }

/-- A session marked for deletion, with a valid ObjectId hex id. -/
def sessNeg : GSession :=
  { id := hexId24, name := "n", values := [], options := optsNeg,
    isNew := false }

/-- A session with the default (positive) max age. -/
def sessZero : GSession :=
  { id := "abc", name := "n", values := [], options := opts0, isNew := false }

/-- A reachable redis connection holding the record of sessNeg. -/
def connA : RedisConn :=
  { ok := true, store := [("session_" ++ hexId24, "x", 9)] }

/-- A reachable, empty redis connection. -/
def conn0 : RedisConn := { ok := true, store := [] }

/-- A reachable mongo connection holding the document of sessNeg. -/
def mcA : MongoConn :=
  { ok := true, docs := [{ id := hexId24, data := "x", modified := 3 }] }

/-- A reachable, empty mongo connection. -/
def mc0 : MongoConn := { ok := true, docs := [] }

/-- A session with a well-typed "modified" entry and a valid id. -/
def sess8 : GSession :=
  { id := hexId24, name := "n", values := [("modified", MValue.time 5)],
    options := opts0, isNew := false }

/- ----------------------------------------------------------------
   Helper lemmas.
   ---------------------------------------------------------------- -/

/-- Deleting a key from the redis key/value list removes every entry
under it. -/
lemma redisLookup_filter (st : List (String × String × Int)) (k : String) :
    redisLookup (List.filter (fun e => !decide (e.1 = k)) st) k = none := by
  induction st with
  | nil => rfl
  | cons a rest ih =>
    obtain ⟨k1, v1⟩ := a
    by_cases h : k1 = k
    · simpa [List.filter_cons, h] using ih
    · simp [List.filter_cons, h, redisLookup, ih]

/-- Removing a document id from the collection removes every document
under it. -/
lemma find?_filter_docs (docs : List SessionItem) (k : String) :
    List.find? (fun d => d.id == k)
      (List.filter (fun d => !decide (d.id = k)) docs) = none := by
  induction docs with
  | nil => rfl
  | cons d rest ih =>
    by_cases h : d.id = k
    · simp [List.filter_cons, h, ih]
    · simp [List.filter_cons, h, List.find?, ih]

/-- When RediStore.load reports an error it leaves the session
untouched. -/
lemma load_error_session (s : RediStore) (dV : String → Except String Values)
    (conn : RedisConn) (sess : GSession) (e : SErr) :
    (s.load dV conn sess).1 = some e → (s.load dV conn sess).2 = sess := by
  intro h
  by_cases hd : (redisGet conn (s.keyPre ++ sess.id)).1 = ""
  · simp [RediStore.load, hd] at h
  · rcases hdv : dV (redisGet conn (s.keyPre ++ sess.id)).1 with e' | v
    · simp [RediStore.load, hd, hdv]
    · simp [RediStore.load, hd, hdv] at h

/- ----------------------------------------------------------------
   Claim theorems.
   ---------------------------------------------------------------- -/

/-- C6 counterexample: the claim says that constructing in single-node
mode with an address list that is not exactly 1 address long fails
with the fatal address-count configuration error.  The empty list has
length different from 1, yet construction reaches the out-of-bounds
indexing of address[0] instead of the configuration panic. -/
theorem claim6_counterexample :
    NewRediStore false 10 [] "" ("PONG", none) =
      ConstructResult.indexOutOfRange ∧
    NewRediStore false 10 [] "" ("PONG", none) ≠
      ConstructResult.panicSingleCount := by
  constructor
  · rfl
  · decide

/-- C6 (amended): constructing in cluster mode with fewer than 6
addresses fails with the fatal cluster configuration panic before any
client is built or pinged; constructing in single-node mode with more
than 1 address fails with the fatal single-mode configuration panic;
but a single-node construction with an empty address list passes the
length check and instead hits the out-of-range indexing of the first
address. -/
theorem claim6_amended :
    (∀ (size : Nat) (addrs : List String) (pw : String)
       (ping : String × Option RedisErr), addrs.length < 6 →
       NewRediStore true size addrs pw ping =
         ConstructResult.panicClusterCount) ∧
    (∀ (size : Nat) (addrs : List String) (pw : String)
       (ping : String × Option RedisErr), addrs.length > 1 →
       NewRediStore false size addrs pw ping =
         ConstructResult.panicSingleCount) ∧
    (∀ (size : Nat) (pw : String) (ping : String × Option RedisErr),
       NewRediStore false size [] pw ping =
         ConstructResult.indexOutOfRange) := by
  refine ⟨?_, ?_, ?_⟩
  · intro size addrs pw ping h
    simp [NewRediStore, h]
  · intro size addrs pw ping h
    simp [NewRediStore, h]
  · intro size pw ping
    rfl

/-- C6 witness: the amended statement applied at concrete inputs: a
3-address cluster construction and a 2-address single-node
construction both panic with their configuration errors. -/
theorem claim6_witness :
    NewRediStore true 5 ["a", "b", "c"] "" ("PONG", none) =
      ConstructResult.panicClusterCount ∧
    NewRediStore false 5 ["a", "b"] "" ("PONG", none) =
      ConstructResult.panicSingleCount :=
  ⟨claim6_amended.1 5 ["a", "b", "c"] "" ("PONG", none) (by decide),
   claim6_amended.2.1 5 ["a", "b"] "" ("PONG", none) (by decide)⟩

/-- C9: constructing in single-node mode with an empty address list
does not raise the documented address-count configuration error: the
count check (length greater than 1) passes, and the constructor then
indexes the first element of the empty list, reaching the
out-of-bounds outcome instead of a configuration error. -/
theorem claim9_thm :
    ∀ (size : Nat) (pw : String) (ping : String × Option RedisErr),
      NewRediStore false size [] pw ping = ConstructResult.indexOutOfRange ∧
      NewRediStore false size [] pw ping ≠
        ConstructResult.panicSingleCount := by
  intro size pw ping
  constructor
  · rfl
  · intro h
    rw [show NewRediStore false size [] pw ping =
          ConstructResult.indexOutOfRange from rfl] at h
    cases h

/-- C10: every store NewRediStore builds in cluster mode has a nil
single-node Client field, its Close dereferences that nil client, and
Close does not depend on (hence never releases) the ClusterClient
field. -/
theorem claim10_thm :
    ∀ (size : Nat) (addrs : List String) (pw : String)
      (ping : String × Option RedisErr) (rs : RediStore)
      (err : Option RedisErr) (cc : Option RedisClusterClientRef),
      NewRediStore true size addrs pw ping = ConstructResult.ok rs err →
      rs.client = none ∧ rs.clusterClient ≠ none ∧
      RediStore.Close rs = CloseResult.nilDeref ∧
      RediStore.Close { rs with clusterClient := cc } = RediStore.Close rs := by
  intro size addrs pw ping rs err cc h
  by_cases hl : addrs.length < 6
  · simp [NewRediStore, hl] at h
  · simp [NewRediStore, hl] at h
    obtain ⟨h1, h2⟩ := h
    subst h1
    refine ⟨rfl, by simp, rfl, rfl⟩

/-- C10 witness: the theorem applied to the concrete 6-address cluster
construction. -/
theorem claim10_witness :
    rsCluster6.client = none ∧ rsCluster6.clusterClient ≠ none ∧
    RediStore.Close rsCluster6 = CloseResult.nilDeref ∧
    RediStore.Close { rsCluster6 with clusterClient := none } =
      RediStore.Close rsCluster6 :=
  claim10_thm 4 addrs6 "" ("PONG", none) rsCluster6 none none (by decide)

/-- C1 counterexample: the claim says a failed cookie decode yields a
fresh session and no error to the caller.  At a concrete input where
the codec rejects the cookie, RediStore.New does return the decode
error (the session is nevertheless fresh with isNew = true). -/
theorem claim1_counterexample :
    (RediStore.New rs0 (fun _ => Except.error "bad signature")
        (fun _ => Except.ok []) conn0 (some "cv") "sess").2 ≠ none ∧
    (RediStore.New rs0 (fun _ => Except.error "bad signature")
        (fun _ => Except.ok []) conn0 (some "cv") "sess").2 =
      some (SErr.codec "bad signature") ∧
    (RediStore.New rs0 (fun _ => Except.error "bad signature")
        (fun _ => Except.ok []) conn0 (some "cv") "sess").1.isNew = true := by
  refine ⟨?_, rfl, rfl⟩
  intro h
  cases h

/-- C1 (amended): when the cookie decode fails, or when the decode
succeeds and the subsequent load fails, RediStore.New yields a new,
empty session with isNew = true, and returns that decode or load error
to the caller (rather than returning no error). -/
theorem claim1_amended :
    ∀ (s : RediStore) (dI : String → Except String String)
      (dV : String → Except String Values) (conn : RedisConn)
      (cv name : String),
      (∀ e, dI cv = Except.error e →
        RediStore.New s dI dV conn (some cv) name =
          ({ id := "", name := name, values := [], options := s.options,
             isNew := true }, some (SErr.codec e))) ∧
      (∀ sid e, dI cv = Except.ok sid →
        (s.load dV conn { id := sid, name := name, values := [],
                          options := s.options, isNew := true }).1 = some e →
        RediStore.New s dI dV conn (some cv) name =
          ({ id := sid, name := name, values := [], options := s.options,
             isNew := true }, some e)) := by
  intro s dI dV conn cv name
  constructor
  · intro e he
    simp [RediStore.New, he]
  · intro sid e hd hl
    have h2 := load_error_session s dV conn
      { id := sid, name := name, values := [], options := s.options,
        isNew := true } e hl
    simp [RediStore.New, hd, hl, h2]

/-- C1 witness: the amended statement applied at a concrete rejecting
codec. -/
theorem claim1_witness :
    RediStore.New rs0 (fun _ => Except.error "sig") (fun _ => Except.ok [])
      conn0 (some "c") "n" =
      ({ id := "", name := "n", values := [], options := rs0.options,
         isNew := true }, some (SErr.codec "sig")) :=
  (claim1_amended rs0 (fun _ => Except.error "sig") (fun _ => Except.ok [])
    conn0 "c" "n").1 "sig" rfl

/-- C2: the code contradicts the claim (and its own comment "not new
if no error and data available"): with a valid cookie for id "abc" and
no record under key session_abc, the GET reports redis.Nil with empty
data, load returns nil as the claim states, but New then marks the
session isNew = false even though no data was loaded. -/
theorem claim2_bug :
    redisGet conn0 ("session_" ++ "abc") = ("", some RedisErr.redisNil) ∧
    (rs0.load (fun _ => Except.ok []) conn0 sessZero).1 = none ∧
    RediStore.New rs0 (fun c => Except.ok c) (fun _ => Except.ok []) conn0
        (some "abc") "n" =
      ({ id := "abc", name := "n", values := [], options := opts0,
         isNew := false }, none) :=
  ⟨rfl, rfl, rfl⟩

/-- C3 counterexample: a backend connectivity error during load does
not propagate: at a concrete unreachable connection the GET reports
the connectivity error together with empty data, and load returns nil
with the session untouched. -/
theorem claim3_counterexample :
    redisGet { ok := false, store := [("session_" ++ hexId24, "x", 9)] }
        ("session_" ++ hexId24) = ("", some RedisErr.connError) ∧
    rs0.load (fun _ => Except.ok [])
        { ok := false, store := [("session_" ++ hexId24, "x", 9)] } sessNeg =
      (none, sessNeg) :=
  ⟨rfl, rfl⟩

/-- C3 (amended): backend connectivity errors during load are
swallowed, not propagated: whenever the connection is down, load
returns no error and leaves the session unchanged, and in general no
redis client error ever escapes load (only codec decode errors on
nonempty data do). -/
theorem claim3_amended :
    (∀ (s : RediStore) (dV : String → Except String Values)
       (conn : RedisConn) (sess : GSession), conn.ok = false →
       s.load dV conn sess = (none, sess)) ∧
    (∀ (s : RediStore) (dV : String → Except String Values)
       (conn : RedisConn) (sess : GSession) (e : RedisErr),
       (s.load dV conn sess).1 ≠ some (SErr.redis e)) := by
  constructor
  · intro s dV conn sess h
    simp [RediStore.load, redisGet, h]
  · intro s dV conn sess e
    by_cases hd : (redisGet conn (s.keyPre ++ sess.id)).1 = ""
    · simp [RediStore.load, hd]
    · rcases hdv : dV (redisGet conn (s.keyPre ++ sess.id)).1 with e' | v
      · simp [RediStore.load, hd, hdv]
      · simp [RediStore.load, hd, hdv]

/-- C3 witness: the amended statement applied at a concrete
unreachable connection. -/
theorem claim3_witness :
    rs0.load (fun _ => Except.ok []) { ok := false, store := [] } sessZero =
      (none, sessZero) :=
  claim3_amended.1 rs0 (fun _ => Except.ok []) { ok := false, store := [] }
    sessZero rfl

/-- C4: for both stores, Save on a session with negative MaxAge
deletes the backend record for the session id and sets a cookie with
empty value, ignoring the payload entirely (the result does not depend
on the values); when the backend delete fails the error is returned
and no cookie is set. -/
theorem claim4_thm :
    ∀ (s : RediStore) (encV : Values → Except String String)
      (encI : String → Except String String) (freshId : String)
      (conn : RedisConn) (sess : GSession) (c : MongoConn) (now : Nat)
      (v' : Values),
      sess.options.maxAge < 0 →
      (((RediStore.Save s encV encI freshId conn sess).2.2 = none →
         (RediStore.Save s encV encI freshId conn sess).2.1 =
           some { name := sess.name, value := "", options := sess.options } ∧
         redisLookup (RediStore.Save s encV encI freshId conn sess).1.store
           (s.keyPre ++ sess.id) = none) ∧
       ((RediStore.Save s encV encI freshId conn sess).2.2 ≠ none →
         (RediStore.Save s encV encI freshId conn sess).2.1 = none ∧
         (RediStore.Save s encV encI freshId conn sess).1 = conn) ∧
       RediStore.Save s encV encI freshId conn { sess with values := v' } =
         RediStore.Save s encV encI freshId conn sess) ∧
      (((MongoStore.Save encV encI freshId now c sess).2.2 = none →
         (MongoStore.Save encV encI freshId now c sess).2.1 =
           some { name := sess.name, value := "", options := sess.options } ∧
         List.find? (fun d => d.id == sess.id)
           (MongoStore.Save encV encI freshId now c sess).1.docs = none) ∧
       ((MongoStore.Save encV encI freshId now c sess).2.2 ≠ none →
         (MongoStore.Save encV encI freshId now c sess).2.1 = none ∧
         (MongoStore.Save encV encI freshId now c sess).1 = c) ∧
       MongoStore.Save encV encI freshId now c { sess with values := v' } =
         MongoStore.Save encV encI freshId now c sess) := by
  intro s encV encI freshId conn sess c now v' hage
  constructor
  · by_cases hok : conn.ok
    · refine ⟨?_, ?_, ?_⟩
      · intro _
        exact ⟨by simp [RediStore.Save, redisDel, hage, hok],
               by simp [RediStore.Save, redisDel, hage, hok,
                        redisLookup_filter]⟩
      · intro h
        exact absurd (by simp [RediStore.Save, redisDel, hage, hok]) h
      · simp [RediStore.Save, redisDel, hage, hok]
    · refine ⟨?_, ?_, ?_⟩
      · intro h
        simp [RediStore.Save, redisDel, hage, hok] at h
      · intro _
        exact ⟨by simp [RediStore.Save, redisDel, hage, hok],
               by simp [RediStore.Save, redisDel, hage, hok]⟩
      · simp [RediStore.Save, redisDel, hage, hok]
  · by_cases hid : isObjectIdHex sess.id
    · by_cases hcok : c.ok
      · by_cases hany : c.docs.any (fun d => d.id == sess.id)
        · refine ⟨?_, ?_, ?_⟩
          · intro _
            exact ⟨by simp [MongoStore.Save, MongoStore.delete, mongoRemoveId,
                            hage, hid, hcok, hany],
                   by simp [MongoStore.Save, MongoStore.delete, mongoRemoveId,
                            hage, hid, hcok, hany, find?_filter_docs]⟩
          · intro h
            exact absurd (by simp [MongoStore.Save, MongoStore.delete,
                                   mongoRemoveId, hage, hid, hcok, hany]) h
          · simp [MongoStore.Save, MongoStore.delete, mongoRemoveId, hage,
                  hid, hcok, hany]
        · refine ⟨?_, ?_, ?_⟩
          · intro h
            simp [MongoStore.Save, MongoStore.delete, mongoRemoveId, hage,
                  hid, hcok, hany] at h
          · intro _
            exact ⟨by simp [MongoStore.Save, MongoStore.delete, mongoRemoveId,
                            hage, hid, hcok, hany],
                   by simp [MongoStore.Save, MongoStore.delete, mongoRemoveId,
                            hage, hid, hcok, hany]⟩
          · simp [MongoStore.Save, MongoStore.delete, mongoRemoveId, hage,
                  hid, hcok, hany]
      · refine ⟨?_, ?_, ?_⟩
        · intro h
          simp [MongoStore.Save, MongoStore.delete, mongoRemoveId, hage,
                hid, hcok] at h
        · intro _
          exact ⟨by simp [MongoStore.Save, MongoStore.delete, mongoRemoveId,
                          hage, hid, hcok],
                 by simp [MongoStore.Save, MongoStore.delete, mongoRemoveId,
                          hage, hid, hcok]⟩
        · simp [MongoStore.Save, MongoStore.delete, mongoRemoveId, hage,
                hid, hcok]
    · refine ⟨?_, ?_, ?_⟩
      · intro h
        simp [MongoStore.Save, MongoStore.delete, hage, hid] at h
      · intro _
        exact ⟨by simp [MongoStore.Save, MongoStore.delete, hage, hid],
               by simp [MongoStore.Save, MongoStore.delete, hage, hid]⟩
      · simp [MongoStore.Save, MongoStore.delete, hage, hid]

/-- C4 witness: the theorem applied at concrete inputs: reachable
backends holding the record of sessNeg (MaxAge = -1). -/
theorem claim4_witness :
    (RediStore.Save rs0 (fun _ => Except.ok "x") (fun i => Except.ok i) "fid"
        connA sessNeg).2.1 =
      some { name := sessNeg.name, value := "", options := sessNeg.options } ∧
    redisLookup (RediStore.Save rs0 (fun _ => Except.ok "x")
        (fun i => Except.ok i) "fid" connA sessNeg).1.store
      (rs0.keyPre ++ sessNeg.id) = none ∧
    (MongoStore.Save (fun _ => Except.ok "x") (fun i => Except.ok i) "fid" 7
        mcA sessNeg).2.1 =
      some { name := sessNeg.name, value := "", options := sessNeg.options } ∧
    List.find? (fun d => d.id == sessNeg.id)
      (MongoStore.Save (fun _ => Except.ok "x") (fun i => Except.ok i) "fid" 7
        mcA sessNeg).1.docs = none :=
  ⟨((claim4_thm rs0 (fun _ => Except.ok "x") (fun i => Except.ok i) "fid"
      connA sessNeg mcA 7 [] (by decide)).1.1 (by decide)).1,
   ((claim4_thm rs0 (fun _ => Except.ok "x") (fun i => Except.ok i) "fid"
      connA sessNeg mcA 7 [] (by decide)).1.1 (by decide)).2,
   ((claim4_thm rs0 (fun _ => Except.ok "x") (fun i => Except.ok i) "fid"
      connA sessNeg mcA 7 [] (by decide)).2.1 (by decide)).1,
   ((claim4_thm rs0 (fun _ => Except.ok "x") (fun i => Except.ok i) "fid"
      connA sessNeg mcA 7 [] (by decide)).2.1 (by decide)).2⟩

/-- C5: with a nonzero configured maxLength, Save on a session whose
encoded payload is longer returns the too-big error and leaves the
backend untouched (no cookie is set either); with maxLength 0 the save
helper never raises the too-big error. -/
theorem claim5_thm :
    (∀ (s : RediStore) (encV : Values → Except String String)
       (encI : String → Except String String) (freshId : String)
       (conn : RedisConn) (sess : GSession) (enc : String),
       0 ≤ sess.options.maxAge →
       s.maxLength ≠ 0 →
       encV sess.values = Except.ok enc →
       enc.length > s.maxLength →
       RediStore.Save s encV encI freshId conn sess =
         (conn, none, some SErr.tooBig)) ∧
    (∀ (s : RediStore) (encV : Values → Except String String)
       (conn : RedisConn) (sess : GSession),
       s.maxLength = 0 →
       (s.saveHelper encV conn sess).2 ≠ some SErr.tooBig) := by
  constructor
  · intro s encV encI freshId conn sess enc hage hml henc hlen
    have hnl : ¬ sess.options.maxAge < 0 := not_lt.mpr hage
    by_cases hid : sess.id = "" <;>
      simp [RediStore.Save, RediStore.saveHelper, hnl, hid, henc, hml, hlen]
  · intro s encV conn sess h0
    rcases henc : encV sess.values with e | enc
    · simp [RediStore.saveHelper, henc]
    · by_cases hok : conn.ok <;>
        simp [RediStore.saveHelper, henc, h0, redisSet, hok]

/-- C5 witness: the theorem applied at a store with maxLength 2 and a
3-byte encoding, and at a store with maxLength 0. -/
theorem claim5_witness :
    RediStore.Save rs1 (fun _ => Except.ok "abc") (fun i => Except.ok i) "fid"
        conn0 sessZero = (conn0, none, some SErr.tooBig) ∧
    (rs2.saveHelper (fun _ => Except.ok "abc") conn0 sessZero).2 ≠
      some SErr.tooBig :=
  ⟨claim5_thm.1 rs1 (fun _ => Except.ok "abc") (fun i => Except.ok i) "fid"
      conn0 sessZero "abc" (by decide) (by decide) rfl (by decide),
   claim5_thm.2 rs2 (fun _ => Except.ok "abc") conn0 sessZero rfl⟩

/-- C7: calling the wrapper save twice in a row performs backend I/O
at most once when the first call succeeds: the second call then does
no store call, returns no error and leaves the session unchanged; the
valueChanged flag is cleared only on success (on failure it is left as
it was). -/
theorem claim7_thm :
    ∀ (s : WSession) (r1 r2 : Option SErr),
      ((WSession.Save r1 s).1 = none →
        (WSession.Save r2 (WSession.Save r1 s).2.1).1 = none ∧
        (WSession.Save r2 (WSession.Save r1 s).2.1).2.2 = 0 ∧
        (WSession.Save r2 (WSession.Save r1 s).2.1).2.1 =
          (WSession.Save r1 s).2.1 ∧
        (WSession.Save r1 s).2.2 +
          (WSession.Save r2 (WSession.Save r1 s).2.1).2.2 ≤ 1) ∧
      (∀ e, (WSession.Save r1 s).1 = some e →
        (WSession.Save r1 s).2.1.valueChanged = s.valueChanged) := by
  intro s r1 r2
  rcases s with ⟨vals, vc⟩
  cases vc with
  | false =>
    refine ⟨?_, ?_⟩
    · intro _
      simp [WSession.Save]
    · intro e h
      simp [WSession.Save] at h
  | true =>
    cases r1 with
    | none =>
      refine ⟨?_, ?_⟩
      · intro _
        simp [WSession.Save]
      · intro e h
        simp [WSession.Save] at h
    | some e1 =>
      refine ⟨?_, ?_⟩
      · intro h
        simp [WSession.Save] at h
      · intro e h
        simp [WSession.Save]

/-- C7 witness: the theorem applied to a dirty session whose first
save succeeds. -/
theorem claim7_witness :
    (WSession.Save none ((WSession.Save none
        ({ values := [], valueChanged := true } : WSession)).2.1)).1 = none ∧
    (WSession.Save none ((WSession.Save none
        ({ values := [], valueChanged := true } : WSession)).2.1)).2.2 = 0 :=
  ⟨((claim7_thm { values := [], valueChanged := true } none none).1 rfl).1,
   ((claim7_thm { values := [], valueChanged := true } none none).1 rfl).2.1⟩

/-- C8: on MongoStore.Save with nonnegative MaxAge (and a well-formed
effective id), the upserted record carries modified = the
values "modified" entry when it is present and is a timestamp; a
present but mistyped entry makes Save return the invalid-modified
error writing nothing and setting no cookie; an absent entry makes the
record carry the current time. -/
theorem claim8_thm :
    ∀ (encV : Values → Except String String)
      (encI : String → Except String String) (freshId : String) (now : Nat)
      (c : MongoConn) (sess : GSession) (t : Nat) (v : MValue) (enc : String),
      0 ≤ sess.options.maxAge →
      isObjectIdHex (if sess.id = "" then freshId else sess.id) = true →
      ((lookupValue sess.values "modified" = some (MValue.time t) →
         encV sess.values = Except.ok enc → c.ok = true →
         List.find? (fun d =>
             d.id == (if sess.id = "" then freshId else sess.id))
           (MongoStore.Save encV encI freshId now c sess).1.docs =
           some { id := (if sess.id = "" then freshId else sess.id),
                  data := enc, modified := t }) ∧
       (lookupValue sess.values "modified" = some v →
         (∀ u, v ≠ MValue.time u) →
         MongoStore.Save encV encI freshId now c sess =
           (c, none, some SErr.invalidModified)) ∧
       (lookupValue sess.values "modified" = none →
         encV sess.values = Except.ok enc → c.ok = true →
         List.find? (fun d =>
             d.id == (if sess.id = "" then freshId else sess.id))
           (MongoStore.Save encV encI freshId now c sess).1.docs =
           some { id := (if sess.id = "" then freshId else sess.id),
                  data := enc, modified := now })) := by
  intro encV encI freshId now c sess t v enc hage hvalid
  have hnl : ¬ sess.options.maxAge < 0 := not_lt.mpr hage
  by_cases hid : sess.id = ""
  · simp only [hid, if_true] at hvalid
    refine ⟨?_, ?_, ?_⟩
    · intro hlook henc hok
      rcases hencI : encI freshId with e | en <;>
        simp [MongoStore.Save, MongoStore.upsert, mongoUpsertId, hnl, hid,
              hvalid, hlook, henc, hok, hencI, List.find?]
    · intro hlook hv
      cases v with
      | time u => exact absurd rfl (hv u)
      | str a =>
        simp [MongoStore.Save, MongoStore.upsert, hnl, hid, hvalid, hlook]
      | int a =>
        simp [MongoStore.Save, MongoStore.upsert, hnl, hid, hvalid, hlook]
      | boolean a =>
        simp [MongoStore.Save, MongoStore.upsert, hnl, hid, hvalid, hlook]
    · intro hlook henc hok
      rcases hencI : encI freshId with e | en <;>
        simp [MongoStore.Save, MongoStore.upsert, mongoUpsertId, hnl, hid,
              hvalid, hlook, henc, hok, hencI, List.find?]
  · simp only [hid, if_false] at hvalid
    refine ⟨?_, ?_, ?_⟩
    · intro hlook henc hok
      rcases hencI : encI sess.id with e | en <;>
        simp [MongoStore.Save, MongoStore.upsert, mongoUpsertId, hnl, hid,
              hvalid, hlook, henc, hok, hencI, List.find?]
    · intro hlook hv
      cases v with
      | time u => exact absurd rfl (hv u)
      | str a =>
        simp [MongoStore.Save, MongoStore.upsert, hnl, hid, hvalid, hlook]
      | int a =>
        simp [MongoStore.Save, MongoStore.upsert, hnl, hid, hvalid, hlook]
      | boolean a =>
        simp [MongoStore.Save, MongoStore.upsert, hnl, hid, hvalid, hlook]
    · intro hlook henc hok
      rcases hencI : encI sess.id with e | en <;>
        simp [MongoStore.Save, MongoStore.upsert, mongoUpsertId, hnl, hid,
              hvalid, hlook, henc, hok, hencI, List.find?]

/-- C8 witness: the theorem applied to a session with a well-typed
"modified" timestamp and a valid ObjectId hex id. -/
theorem claim8_witness :
    List.find? (fun d =>
        d.id == (if sess8.id = "" then "f" else sess8.id))
      (MongoStore.Save (fun _ => Except.ok "E") (fun i => Except.ok i) "f" 9
        mc0 sess8).1.docs =
      some { id := (if sess8.id = "" then "f" else sess8.id), data := "E",
             modified := 5 } :=
  ((claim8_thm (fun _ => Except.ok "E") (fun i => Except.ok i) "f" 9 mc0 sess8
      5 (MValue.str "x") "E" (by decide) (by decide)).1 rfl rfl rfl)

end SessionLib
